import Mathlib

/-!
Verification of the evaluation-report engine of this repository
(src/metrics/report.py) against its specification.

The core functions under src/metrics/report.py are embedded directly.
Helpers imported there from sibling modules (getters.py, metrics.py,
log_parsers.py) are not under src/; those are modelled from the
specification and carry a doc comment saying so.
-/

/-- Test-case identifier: an opaque string (spec section 3). -/
abbrev TestCaseId := String

/-- Modelled from the spec: the TestStatus enum of log_parsers.py is not
under src/.  Section 2 of the spec describes the status map values as
PASS, FAIL, and optionally SKIP or ERROR; section 3 says any status not
equal to PASS is treated as FAIL for classification. -/
inductive TestStatus where
  | PASSED
  | FAILED
  | SKIPPED
  | ERRORED
deriving DecidableEq, Repr

/-- A status map for one evaluation run: an insertion-ordered mapping from
test-case name to status, embedded as an association list (Python dict). -/
abbrev StatusMap := List (TestCaseId × TestStatus)

/-- Modelled from the spec: test_passed is imported from getters.py, which is
not under src/.  Spec section 4.1: a test case maps to success exactly when
the status map maps it to PASS. -/
def test_passed (test_case : TestCaseId) (sm : StatusMap) : Bool :=
  match sm.lookup test_case with
  | some TestStatus.PASSED => true
  | _ => false

/-- Modelled from the spec: test_failed is imported from getters.py, which is
not under src/.  Spec sections 3 and 4.1: any present status other than PASS
counts as FAIL, while a test case absent from the status map is a distinct
silent condition that counts as neither passed nor failed. -/
def test_failed (test_case : TestCaseId) (sm : StatusMap) : Bool :=
  match sm.lookup test_case with
  | some s => s ≠ TestStatus.PASSED
  | Option.none => false

/-- Gold reference for one instance: the four gold category lists
(spec section 3, GoldReference; the values of the eval-references JSON). -/
structure GoldResults where
  FAIL_TO_PASS : List TestCaseId
  PASS_TO_PASS : List TestCaseId
  FAIL_TO_FAIL : List TestCaseId
  PASS_TO_FAIL : List TestCaseId
deriving DecidableEq, Repr

/-- One gold category of an InstanceReport: the success and failure lists. -/
structure CategoryReport where
  success : List TestCaseId
  failure : List TestCaseId
deriving DecidableEq, Repr

/-- InstanceReport: mapping from each gold category to its success and
failure lists (the dict returned by get_eval_report). -/
structure InstanceReport where
  FAIL_TO_PASS : CategoryReport
  PASS_TO_PASS : CategoryReport
  FAIL_TO_FAIL : CategoryReport
  PASS_TO_FAIL : CategoryReport
deriving DecidableEq, Repr

/-- The per-category loop of get_eval_report (src/metrics/report.py,
lines 52 to 86): iterate over the gold list in order; if the test passed
append it to the success list, else if it failed append it to the failure
list, else append it to neither. -/
def classifyCategory (eval_sm : StatusMap) : List TestCaseId → CategoryReport
  | [] => ⟨[], []⟩
  | test_case :: rest =>
    let r := classifyCategory eval_sm rest
    if test_passed test_case eval_sm then
      ⟨test_case :: r.success, r.failure⟩
    else if test_failed test_case eval_sm then
      ⟨r.success, test_case :: r.failure⟩
    else
      r

/-- get_eval_report (src/metrics/report.py, lines 29 to 105): build the
report for one instance from the evaluation status map and the gold
results, one classified pair of lists per gold category. -/
def get_eval_report (eval_sm : StatusMap) (gold_results : GoldResults) :
    InstanceReport :=
  { FAIL_TO_PASS := classifyCategory eval_sm gold_results.FAIL_TO_PASS
    PASS_TO_PASS := classifyCategory eval_sm gold_results.PASS_TO_PASS
    FAIL_TO_FAIL := classifyCategory eval_sm gold_results.FAIL_TO_FAIL
    PASS_TO_FAIL := classifyCategory eval_sm gold_results.PASS_TO_FAIL }

/-- Modelled from the spec: the resolution verdicts returned by
get_resolution_status of metrics.py, which is not under src/.  Spec
sections 3 and 4.2 name fully resolved, partially resolved and not
resolved as the verdict taxonomy. -/
inductive ResolutionVerdict where
  | RESOLVED_FULL
  | RESOLVED_PARTIAL
  | RESOLVED_NO
deriving DecidableEq, Repr

/-- A category counts as fully succeeded when every test case present in it
(in its success or failure list) is in its success list (spec section 4.2). -/
def categoryFullSuccess (c : CategoryReport) : Bool :=
  (c.success ++ c.failure).all (fun t => decide (t ∈ c.success))

/-- Modelled from the spec: get_resolution_status is imported from
metrics.py, which is not under src/.  Spec section 4.2: an instance is
fully resolved iff every test case present in FAIL_TO_PASS ends in its
success list and every test case present in PASS_TO_PASS ends in its
success list; it is partially resolved when FAIL_TO_PASS fully succeeds
but PASS_TO_PASS does not, and not resolved otherwise. -/
def get_resolution_status (r : InstanceReport) : ResolutionVerdict :=
  if categoryFullSuccess r.FAIL_TO_PASS && categoryFullSuccess r.PASS_TO_PASS then
    ResolutionVerdict.RESOLVED_FULL
  else if categoryFullSuccess r.FAIL_TO_PASS then
    ResolutionVerdict.RESOLVED_PARTIAL
  else
    ResolutionVerdict.RESOLVED_NO

/-- Assignment into a Python dict, embedded on an insertion-ordered
association list: overwrite in place when the key is present, append
otherwise. -/
def dictInsert {β : Type} (m : List (String × β)) (k : String) (v : β) :
    List (String × β) :=
  if (m.lookup k).isSome then
    m.map (fun kv => if kv.1 = k then (k, v) else kv)
  else
    m ++ [(k, v)]

/-- An insertion-ordered string-keyed map of instance reports
(reports_patch_success and reports_patch_failure in report.py). -/
abbrev ReportDict := List (String × InstanceReport)

/-- One evaluation log as the walker sees it: the instance id parsed from
the path (get_id_from_lp), the file name used as the report key
(get_file_name_from_lp), and the status map and has_report flag returned
for it by the external Status Map Source get_logs_eval (spec section 6). -/
structure EvalLog where
  instance_id : String
  file_name : String
  eval_sm : StatusMap
  has_report : Bool

/-- The callback filter of get_eval_reports_for_logs: a log is kept when no
callback is given or the callback accepts it (src/metrics/report.py,
lines 131 to 133). -/
def callbackKeeps (callback : Option (EvalLog → Bool)) (l : EvalLog) : Bool :=
  match callback with
  | Option.none => true
  | some cb => cb l

/-- The synthesized all-failure report for a patch that failed to apply
(src/metrics/report.py, lines 150 to 153): every gold category gets an
empty success list and its full gold list as the failure list. -/
def synthFailureReport (gold_results : GoldResults) : InstanceReport :=
  { FAIL_TO_PASS := ⟨[], gold_results.FAIL_TO_PASS⟩
    PASS_TO_PASS := ⟨[], gold_results.PASS_TO_PASS⟩
    FAIL_TO_FAIL := ⟨[], gold_results.FAIL_TO_FAIL⟩
    PASS_TO_FAIL := ⟨[], gold_results.PASS_TO_FAIL⟩ }

/-- The loop body of get_eval_reports_for_logs (src/metrics/report.py,
lines 130 to 158): skip a log the callback rejects; skip a log whose
instance id has no gold reference; for a log with no usable report store
the synthesized all-failure report in the failure dict; otherwise store
the classified report in the success dict. -/
def processEvalLog (eval_refs : List (String × GoldResults))
    (callback : Option (EvalLog → Bool)) (acc : ReportDict × ReportDict)
    (l : EvalLog) : ReportDict × ReportDict :=
  if !callbackKeeps callback l then acc
  else
    match eval_refs.lookup l.instance_id with
    | Option.none => acc
    | some gold_results =>
      if !l.has_report then
        (acc.1, dictInsert acc.2 l.file_name (synthFailureReport gold_results))
      else
        (dictInsert acc.1 l.file_name (get_eval_report l.eval_sm gold_results),
         acc.2)

/-- get_eval_reports_for_logs (src/metrics/report.py, lines 108 to 160):
fold the loop body over the logs, returning the dict of reports for patch
apply successes and the dict for patch apply failures.  The loading of the
eval-references JSON is abstracted into the eval_refs parameter and the
external get_logs_eval result travels inside each EvalLog. -/
def get_eval_reports_for_logs (eval_logs : List EvalLog)
    (eval_refs : List (String × GoldResults))
    (callback : Option (EvalLog → Bool)) : ReportDict × ReportDict :=
  eval_logs.foldl (processEvalLog eval_refs callback) ([], [])

/-- Python round(y, 2) on an exact rational: round to the nearest multiple
of one hundredth. -/
def pyRound2 (y : ℚ) : ℚ :=
  ((round (y * 100) : ℤ) : ℚ) / 100

/-- Modelled from the spec: compute_fail_to_pass_weighted is imported from
metrics.py, which is not under src/.  Spec section 4.3: the weighted rate
for a category is the total success-case count across all instances divided
by the total success plus failure case count across all instances. -/
def compute_fail_to_pass_weighted (rs : List InstanceReport) : ℚ :=
  ((rs.map (fun r => r.FAIL_TO_PASS.success.length)).sum : ℚ) /
    ((rs.map (fun r =>
      r.FAIL_TO_PASS.success.length + r.FAIL_TO_PASS.failure.length)).sum : ℕ)

/-- Modelled from the spec: compute_pass_to_pass_weighted is imported from
metrics.py, which is not under src/; same weighted-rate definition for
PASS_TO_PASS (spec section 4.3). -/
def compute_pass_to_pass_weighted (rs : List InstanceReport) : ℚ :=
  ((rs.map (fun r => r.PASS_TO_PASS.success.length)).sum : ℚ) /
    ((rs.map (fun r =>
      r.PASS_TO_PASS.success.length + r.PASS_TO_PASS.failure.length)).sum : ℕ)

/-- Modelled from the spec: compute_fail_to_pass_unweighted is imported from
metrics.py, which is not under src/.  Spec section 4.3: the unweighted rate
is the number of instances where the category has a non-empty success list
and an empty failure list, divided by the number of instances where the
category is non-trivially present. -/
def compute_fail_to_pass_unweighted (rs : List InstanceReport) : ℚ :=
  ((rs.countP (fun r =>
      !r.FAIL_TO_PASS.success.isEmpty && r.FAIL_TO_PASS.failure.isEmpty)) : ℚ) /
    ((rs.countP (fun r =>
      !r.FAIL_TO_PASS.success.isEmpty || !r.FAIL_TO_PASS.failure.isEmpty)) : ℚ)

/-- Modelled from the spec: compute_pass_to_pass_unweighted is imported from
metrics.py, which is not under src/; same unweighted-rate definition for
PASS_TO_PASS (spec section 4.3). -/
def compute_pass_to_pass_unweighted (rs : List InstanceReport) : ℚ :=
  ((rs.countP (fun r =>
      !r.PASS_TO_PASS.success.isEmpty && r.PASS_TO_PASS.failure.isEmpty)) : ℚ) /
    ((rs.countP (fun r =>
      !r.PASS_TO_PASS.success.isEmpty || !r.PASS_TO_PASS.failure.isEmpty)) : ℚ)

/-- The three verdicts in a fixed enumeration, used to embed iteration over
the keys of the Counter of resolutions. -/
def allVerdicts : List ResolutionVerdict :=
  [ResolutionVerdict.RESOLVED_FULL, ResolutionVerdict.RESOLVED_PARTIAL,
   ResolutionVerdict.RESOLVED_NO]

/-- One view of the summary built by get_model_eval_summary
(src/metrics/report.py, lines 233 to 243). -/
structure ViewSummary where
  f2p_weighted : ℚ
  p2p_weighted : ℚ
  f2p_unweighted : ℚ
  p2p_unweighted : ℚ
  cases : List ReportDict
  case_resolution_counts : List (ResolutionVerdict × Nat)
  case_resolution_rates : List (ResolutionVerdict × ℚ)

/-- The flattening step of the loop over report_by_patch_status pairs in
get_model_eval_summary (src/metrics/report.py, lines 229 to 230): the
values of the given report dicts, flattened into one report list r. -/
def viewReports (case_dicts : List ReportDict) : List InstanceReport :=
  (case_dicts.map (fun d => d.map Prod.snd)).flatten

/-- The rest of that loop body (src/metrics/report.py, lines 232 to 243):
count the resolution verdicts of the flattened list r (the Counter), and
record the four rounded rates, the raw case dicts, the verdict counts and
each count as a share of len r times 100 rounded to 2 decimal places.  The
Counter holds exactly the verdicts that occur, so a verdict with count zero
appears in neither output list. -/
def makeView (case_dicts : List ReportDict) : ViewSummary :=
  let r := viewReports case_dicts
  let resolutions := r.map get_resolution_status
  { f2p_weighted := pyRound2 (compute_fail_to_pass_weighted r * 100)
    p2p_weighted := pyRound2 (compute_pass_to_pass_weighted r * 100)
    f2p_unweighted := pyRound2 (compute_fail_to_pass_unweighted r * 100)
    p2p_unweighted := pyRound2 (compute_pass_to_pass_unweighted r * 100)
    cases := case_dicts
    case_resolution_counts := allVerdicts.filterMap (fun v =>
      if 0 < resolutions.count v then some (v, resolutions.count v)
      else Option.none)
    case_resolution_rates := allVerdicts.filterMap (fun v =>
      if 0 < resolutions.count v then
        some (v, pyRound2 ((resolutions.count v : ℚ) / (r.length : ℚ) * 100))
      else Option.none) }

/-- One prediction record: its instance id and the generated patch, null
when no patch was generated (spec section 6, predictions file). -/
structure Prediction where
  instance_id : String
  model_patch : Option String
deriving DecidableEq, Repr

/-- The summary returned by get_model_eval_summary: the prediction total
and the two views keyed Patch Apply Success and Patch Apply Success +
Failure (src/metrics/report.py, lines 216 to 245). -/
structure Summary where
  total_predictions : Nat
  patch_apply_success : ViewSummary
  patch_apply_success_and_failure : ViewSummary

/-- get_model_eval_summary (src/metrics/report.py, lines 182 to 245):
get the success and failure report dicts from the walker, then build one
view over the success dict alone and one over the success and failure
dicts together.  File loading and the repo-substring filter construction
are boundary plumbing, abstracted into the preds list and the callback. -/
def get_model_eval_summary (preds : List Prediction) (eval_logs : List EvalLog)
    (eval_refs : List (String × GoldResults))
    (callback : Option (EvalLog → Bool)) : Summary :=
  let reports := get_eval_reports_for_logs eval_logs eval_refs callback
  { total_predictions := preds.length
    patch_apply_success := makeView [reports.1]
    patch_apply_success_and_failure := makeView [reports.1, reports.2] }

/-- The per-repo entry of the report map of get_model_report
(src/metrics/report.py, lines 279 to 285): the five classification lists,
keyed none, generated, with_logs, applied and resolved. -/
structure RepoEntry where
  no_patch : List String
  generated : List String
  with_logs : List String
  applied : List String
  resolved : List String
deriving DecidableEq, Repr

/-- The fresh entry a repo gets when first seen (src/metrics/report.py,
lines 278 to 285): five empty lists. -/
def emptyRepoEntry : RepoEntry := ⟨[], [], [], [], []⟩

/-- The report map returned by get_model_report: repo name to entry. -/
abbrev ReportMap := List (String × RepoEntry)

/-- The repo key computed from an instance id (src/metrics/report.py,
line 277): take the part before the first dot, drop everything from the
last dash on, and replace double underscores with slashes. -/
def repoOf (instance_id : String) : String :=
  let beforeDot := (instance_id.splitOn ".").headD ""
  let parts := beforeDot.splitOn "-"
  let beforeDash :=
    if parts.length ≤ 1 then beforeDot
    else String.intercalate "-" parts.dropLast
  beforeDash.replace "__" "/"

/-- The loop body of get_model_report (src/metrics/report.py, lines 276 to
308) for one prediction.  The filesystem and the external get_logs_eval
are abstracted into the logs parameter: logs maps an instance id to
nothing when no eval log file exists for it, and otherwise to the status
map and found flag that get_logs_eval returns for that log.  A prediction
with a null patch only records its id under the none key; otherwise the
id is recorded under generated, then with_logs when a log exists, then
applied when the log has a usable report, and finally under resolved when
the classified report is fully resolved.  Looking up a gold reference for
a missing instance id raises a KeyError, embedded as an overall result of
nothing. -/
def processPred (logs : String → Option (StatusMap × Bool))
    (gold_refs : List (String × GoldResults)) (report_map : ReportMap)
    (p : Prediction) : Option ReportMap :=
  let repo := repoOf p.instance_id
  let entry := (report_map.lookup repo).getD emptyRepoEntry
  match p.model_patch with
  | Option.none =>
    some (dictInsert report_map repo
      { entry with no_patch := entry.no_patch ++ [p.instance_id] })
  | some _ =>
    let entry := { entry with generated := entry.generated ++ [p.instance_id] }
    match logs p.instance_id with
    | Option.none => some (dictInsert report_map repo entry)
    | some (eval_sm, found) =>
      let entry :=
        { entry with with_logs := entry.with_logs ++ [p.instance_id] }
      if !found then some (dictInsert report_map repo entry)
      else
        let entry :=
          { entry with applied := entry.applied ++ [p.instance_id] }
        match gold_refs.lookup p.instance_id with
        | Option.none => Option.none
        | some gold =>
          let entry :=
            if get_resolution_status (get_eval_report eval_sm gold) =
                ResolutionVerdict.RESOLVED_FULL then
              { entry with resolved := entry.resolved ++ [p.instance_id] }
            else entry
          some (dictInsert report_map repo entry)

/-- get_model_report (src/metrics/report.py, lines 248 to 310): fold the
loop body over the predictions starting from an empty report map.  File
loading is abstracted into the gold_refs and predictions parameters; the
result is nothing when a KeyError aborts the run. -/
def get_model_report (logs : String → Option (StatusMap × Bool))
    (gold_refs : List (String × GoldResults))
    (predictions : List Prediction) : Option ReportMap :=
  predictions.foldlM (processPred logs gold_refs) []

/-! ## Lemmas about the classifier -/

/-- A test case on a success list of the classifier passed. -/
theorem mem_success_passed (sm : StatusMap) (g : List TestCaseId)
    (t : TestCaseId) (h : t ∈ (classifyCategory sm g).success) :
    test_passed t sm = true := by
  induction g with
  | nil => simp [classifyCategory] at h
  | cons a rest ih =>
    by_cases hp : test_passed a sm = true
    · simp only [classifyCategory, hp, if_true] at h
      rcases List.mem_cons.mp h with h1 | h1
      · rw [h1]; exact hp
      · exact ih h1
    · by_cases hf : test_failed a sm = true
      · simp only [classifyCategory, hp, hf] at h
        exact ih h
      · simp only [classifyCategory, hp, hf] at h
        exact ih h

/-- A test case on a failure list of the classifier did not pass and did
fail. -/
theorem mem_failure_failed (sm : StatusMap) (g : List TestCaseId)
    (t : TestCaseId) (h : t ∈ (classifyCategory sm g).failure) :
    test_passed t sm = false ∧ test_failed t sm = true := by
  induction g with
  | nil => simp [classifyCategory] at h
  | cons a rest ih =>
    by_cases hp : test_passed a sm = true
    · simp only [classifyCategory, hp, if_true] at h
      exact ih h
    · by_cases hf : test_failed a sm = true
      · simp only [classifyCategory, hp, hf] at h
        rcases List.mem_cons.mp h with h1 | h1
        · rw [h1]
          exact ⟨Bool.not_eq_true _ ▸ Bool.of_not_eq_true hp, hf⟩
        · exact ih h1
      · simp only [classifyCategory, hp, hf] at h
        exact ih h

/-- A test case absent from the status map is on neither classifier list. -/
theorem not_mem_classify_of_absent (sm : StatusMap) (g : List TestCaseId)
    (t : TestCaseId) (h : sm.lookup t = Option.none) :
    t ∉ (classifyCategory sm g).success ∧ t ∉ (classifyCategory sm g).failure := by
  have hp : test_passed t sm = false := by simp [test_passed, h]
  have hf : test_failed t sm = false := by simp [test_failed, h]
  constructor
  · intro hmem
    have := mem_success_passed sm g t hmem
    rw [hp] at this
    exact Bool.false_ne_true this
  · intro hmem
    have := (mem_failure_failed sm g t hmem).2
    rw [hf] at this
    exact Bool.false_ne_true this

/-! ## Claim C1 -/

/-- C1: for every status map and gold reference, a test case absent from
the status map is appended by get_eval_report to neither the success nor
the failure list of any gold category; in particular it is never counted
as a success. -/
theorem c1_absent_in_neither_list (sm : StatusMap) (gold : GoldResults)
    (t : TestCaseId) (h : sm.lookup t = Option.none) :
    (t ∉ (get_eval_report sm gold).FAIL_TO_PASS.success ∧
      t ∉ (get_eval_report sm gold).FAIL_TO_PASS.failure) ∧
    (t ∉ (get_eval_report sm gold).PASS_TO_PASS.success ∧
      t ∉ (get_eval_report sm gold).PASS_TO_PASS.failure) ∧
    (t ∉ (get_eval_report sm gold).FAIL_TO_FAIL.success ∧
      t ∉ (get_eval_report sm gold).FAIL_TO_FAIL.failure) ∧
    (t ∉ (get_eval_report sm gold).PASS_TO_FAIL.success ∧
      t ∉ (get_eval_report sm gold).PASS_TO_FAIL.failure) :=
  ⟨not_mem_classify_of_absent sm gold.FAIL_TO_PASS t h,
   not_mem_classify_of_absent sm gold.PASS_TO_PASS t h,
   not_mem_classify_of_absent sm gold.FAIL_TO_FAIL t h,
   not_mem_classify_of_absent sm gold.PASS_TO_FAIL t h⟩

/-- Witness for C1 at a concrete status map missing the test case tx. -/
theorem c1_absent_in_neither_list_witness :
    ([("t1", TestStatus.PASSED)] : StatusMap).lookup "tx" = Option.none ∧
    ("tx" ∉ (get_eval_report [("t1", TestStatus.PASSED)]
        ⟨["tx"], ["tx"], ["tx"], ["tx"]⟩).FAIL_TO_PASS.success ∧
      "tx" ∉ (get_eval_report [("t1", TestStatus.PASSED)]
        ⟨["tx"], ["tx"], ["tx"], ["tx"]⟩).FAIL_TO_PASS.failure) :=
  ⟨by decide,
   (c1_absent_in_neither_list [("t1", TestStatus.PASSED)]
      ⟨["tx"], ["tx"], ["tx"], ["tx"]⟩ "tx" (by decide)).1⟩

/-! ## Claim C2 -/

/-- The full-success test on one category, as a proposition. -/
theorem categoryFullSuccess_iff (c : CategoryReport) :
    categoryFullSuccess c = true ↔
      ∀ t ∈ c.success ++ c.failure, t ∈ c.success := by
  simp only [categoryFullSuccess, List.all_eq_true, decide_eq_true_eq,
    List.mem_append]

/-- C2: an instance is classified RESOLVED_FULL exactly when every test
case present in its FAIL_TO_PASS category is in that category's success
list and every test case present in its PASS_TO_PASS category is in that
category's success list. -/
theorem c2_resolved_full_iff (r : InstanceReport) :
    get_resolution_status r = ResolutionVerdict.RESOLVED_FULL ↔
      ((∀ t ∈ r.FAIL_TO_PASS.success ++ r.FAIL_TO_PASS.failure,
          t ∈ r.FAIL_TO_PASS.success) ∧
       (∀ t ∈ r.PASS_TO_PASS.success ++ r.PASS_TO_PASS.failure,
          t ∈ r.PASS_TO_PASS.success)) := by
  constructor
  · intro h
    rw [get_resolution_status] at h
    by_cases h1 : categoryFullSuccess r.FAIL_TO_PASS = true
    · by_cases h2 : categoryFullSuccess r.PASS_TO_PASS = true
      · exact ⟨(categoryFullSuccess_iff _).mp h1,
          (categoryFullSuccess_iff _).mp h2⟩
      · exfalso
        rw [Bool.not_eq_true] at h2
        simp [h1, h2] at h
    · exfalso
      rw [Bool.not_eq_true] at h1
      simp [h1] at h
  · intro hcon
    rw [get_resolution_status]
    have h1 := (categoryFullSuccess_iff _).mpr hcon.1
    have h2 := (categoryFullSuccess_iff _).mpr hcon.2
    simp [h1, h2]

/-! ## Claim C4 -/

/-- C4: in the report returned by get_eval_report, a test case on the
success list of a gold category is never also on that category's failure
list. -/
theorem c4_success_failure_disjoint (sm : StatusMap) (gold : GoldResults)
    (t : TestCaseId) :
    (t ∈ (get_eval_report sm gold).FAIL_TO_PASS.success →
      t ∉ (get_eval_report sm gold).FAIL_TO_PASS.failure) ∧
    (t ∈ (get_eval_report sm gold).PASS_TO_PASS.success →
      t ∉ (get_eval_report sm gold).PASS_TO_PASS.failure) ∧
    (t ∈ (get_eval_report sm gold).FAIL_TO_FAIL.success →
      t ∉ (get_eval_report sm gold).FAIL_TO_FAIL.failure) ∧
    (t ∈ (get_eval_report sm gold).PASS_TO_FAIL.success →
      t ∉ (get_eval_report sm gold).PASS_TO_FAIL.failure) := by
  have key : ∀ g : List TestCaseId, t ∈ (classifyCategory sm g).success →
      t ∉ (classifyCategory sm g).failure := by
    intro g hs hf
    have h1 := mem_success_passed sm g t hs
    have h2 := (mem_failure_failed sm g t hf).1
    rw [h1] at h2
    exact Bool.noConfusion h2
  simp only [get_eval_report]
  exact ⟨key gold.FAIL_TO_PASS, key gold.PASS_TO_PASS,
    key gold.FAIL_TO_FAIL, key gold.PASS_TO_FAIL⟩

/-! ## Lemmas about dictInsert -/

/-- Looking up a key in the point-replaced list finds the new value when
the key was present. -/
theorem lookup_map_replace_self {β : Type} (m : List (String × β))
    (k : String) (v : β) :
    (m.map (fun kv => if kv.1 = k then (k, v) else kv)).lookup k =
      if (m.lookup k).isSome then some v else Option.none := by
  induction m with
  | nil => simp
  | cons kv rest ih =>
    by_cases hk : kv.1 = k
    · rw [List.map_cons, if_pos hk]
      have hb : (k == kv.1) = true := beq_iff_eq.mpr hk.symm
      simp [List.lookup, hb]
    · rw [List.map_cons, if_neg hk]
      have hne : k ≠ kv.1 := fun he => hk he.symm
      have hl : List.lookup k
          (kv :: List.map (fun kv => if kv.1 = k then (k, v) else kv) rest) =
          List.lookup k
            (List.map (fun kv => if kv.1 = k then (k, v) else kv) rest) := by
        simp [List.lookup, beq_false_of_ne hne]
      have hr : List.lookup k (kv :: rest) = List.lookup k rest := by
        simp [List.lookup, beq_false_of_ne hne]
      rw [hl, ih, hr]

/-- Looking up another key in the point-replaced list is unchanged. -/
theorem lookup_map_replace_other {β : Type} (m : List (String × β))
    (k k' : String) (v : β) (hne : k' ≠ k) :
    (m.map (fun kv => if kv.1 = k then (k, v) else kv)).lookup k' =
      m.lookup k' := by
  induction m with
  | nil => simp
  | cons kv rest ih =>
    by_cases hk : kv.1 = k
    · rw [List.map_cons, if_pos hk]
      have h1 : k' ≠ kv.1 := fun he => hne (he.trans hk)
      simp [List.lookup, beq_false_of_ne hne, beq_false_of_ne h1, ih]
    · rw [List.map_cons, if_neg hk]
      by_cases hq : k' = kv.1
      · simp [List.lookup, beq_iff_eq.mpr hq]
      · simp [List.lookup, beq_false_of_ne hq, ih]

/-- Looking up the appended key when it was absent from the front part. -/
theorem lookup_append_single_self {β : Type} (m : List (String × β))
    (k : String) (v : β) (h : m.lookup k = Option.none) :
    (m ++ [(k, v)]).lookup k = some v := by
  induction m with
  | nil => simp [List.lookup]
  | cons kv rest ih =>
    by_cases hq : k = kv.1
    · simp [List.lookup, beq_iff_eq.mpr hq] at h
    · simp only [List.lookup, beq_false_of_ne hq] at h
      simp only [List.cons_append, List.lookup, beq_false_of_ne hq]
      exact ih h

/-- Looking up another key skips the appended pair. -/
theorem lookup_append_single_other {β : Type} (m : List (String × β))
    (k k' : String) (v : β) (hne : k' ≠ k) :
    (m ++ [(k, v)]).lookup k' = m.lookup k' := by
  induction m with
  | nil => simp [List.lookup, beq_false_of_ne hne]
  | cons kv rest ih =>
    by_cases hq : k' = kv.1
    · simp [List.lookup, beq_iff_eq.mpr hq]
    · simp only [List.cons_append, List.lookup, beq_false_of_ne hq]
      exact ih

/-- Looking up the inserted key finds the inserted value. -/
theorem lookup_dictInsert_self {β : Type} (m : List (String × β)) (k : String)
    (v : β) : (dictInsert m k v).lookup k = some v := by
  unfold dictInsert
  split
  · rename_i h
    rw [lookup_map_replace_self]
    simp [h]
  · rename_i h
    cases hlk : m.lookup k with
    | none => exact lookup_append_single_self m k v hlk
    | some w =>
      rw [hlk] at h
      simp at h

/-- Looking up a different key is unchanged by the insertion. -/
theorem lookup_dictInsert_other {β : Type} (m : List (String × β))
    (k k' : String) (v : β) (hne : k' ≠ k) :
    (dictInsert m k v).lookup k' = m.lookup k' := by
  unfold dictInsert
  split
  · exact lookup_map_replace_other m k k' v hne
  · exact lookup_append_single_other m k k' v hne

/-- An element of an inserted dict was already present or is the inserted
pair. -/
theorem mem_dictInsert {β : Type} (m : List (String × β)) (k : String)
    (v : β) (pr : String × β) (h : pr ∈ dictInsert m k v) :
    pr ∈ m ∨ pr = (k, v) := by
  unfold dictInsert at h
  split at h
  · rcases List.mem_map.mp h with ⟨kv, hkv, heq⟩
    by_cases hk : kv.1 = k
    · rw [if_pos hk] at heq
      exact Or.inr heq.symm
    · rw [if_neg hk] at heq
      exact Or.inl (heq ▸ hkv)
  · rcases List.mem_append.mp h with h1 | h1
    · exact Or.inl h1
    · exact Or.inr (List.mem_singleton.mp h1)

/-! ## Claim C7 -/

/-- The walker loop body leaves the accumulator unchanged on a log whose
instance id has no gold reference. -/
theorem processEvalLog_skip (eval_refs : List (String × GoldResults))
    (cb : Option (EvalLog → Bool)) (acc : ReportDict × ReportDict)
    (l : EvalLog) (h : eval_refs.lookup l.instance_id = Option.none) :
    processEvalLog eval_refs cb acc l = acc := by
  simp [processEvalLog, h]

/-- C7: a log whose instance id is absent from the gold reference store is
skipped by get_eval_reports_for_logs without raising: the result over any
log list containing it equals the result over the same list with that log
removed, so it lands in neither returned dict and the other logs are
processed unchanged. -/
theorem c7_missing_reference_skipped (eval_refs : List (String × GoldResults))
    (cb : Option (EvalLog → Bool)) (l : EvalLog)
    (h : eval_refs.lookup l.instance_id = Option.none)
    (pre post : List EvalLog) :
    get_eval_reports_for_logs (pre ++ l :: post) eval_refs cb =
      get_eval_reports_for_logs (pre ++ post) eval_refs cb := by
  unfold get_eval_reports_for_logs
  rw [List.foldl_append, List.foldl_append, List.foldl_cons,
    processEvalLog_skip eval_refs cb _ l h]

/-- Witness for C7 at a concrete log with no gold reference. -/
theorem c7_missing_reference_skipped_witness :
    ([] : List (String × GoldResults)).lookup "i9" = Option.none ∧
    get_eval_reports_for_logs
        ([] ++ (⟨"i9", "f9", [], true⟩ : EvalLog) :: []) [] Option.none =
      get_eval_reports_for_logs ([] ++ []) [] Option.none :=
  ⟨by decide,
   c7_missing_reference_skipped [] Option.none ⟨"i9", "f9", [], true⟩
     (by decide) [] []⟩

/-! ## Claim C3 -/

/-- The walker loop body never touches dict entries keyed by a file name
other than that of the processed log. -/
theorem processEvalLog_lookup_ne (eval_refs : List (String × GoldResults))
    (cb : Option (EvalLog → Bool)) (l : EvalLog) (fn : String)
    (hne : l.file_name ≠ fn) (acc : ReportDict × ReportDict) :
    (processEvalLog eval_refs cb acc l).1.lookup fn = acc.1.lookup fn ∧
    (processEvalLog eval_refs cb acc l).2.lookup fn = acc.2.lookup fn := by
  unfold processEvalLog
  split
  · exact ⟨rfl, rfl⟩
  · split
    · exact ⟨rfl, rfl⟩
    · split
      · exact ⟨rfl, lookup_dictInsert_other _ _ _ _ (Ne.symm hne)⟩
      · exact ⟨lookup_dictInsert_other _ _ _ _ (Ne.symm hne), rfl⟩

/-- Folding the walker over logs whose file names all differ from fn leaves
both dict entries at fn unchanged. -/
theorem walker_lookup_preserved (eval_refs : List (String × GoldResults))
    (cb : Option (EvalLog → Bool)) (fn : String) :
    ∀ (logs : List EvalLog) (acc : ReportDict × ReportDict),
      (∀ l' ∈ logs, l'.file_name ≠ fn) →
      ((logs.foldl (processEvalLog eval_refs cb) acc).1.lookup fn =
          acc.1.lookup fn ∧
       (logs.foldl (processEvalLog eval_refs cb) acc).2.lookup fn =
          acc.2.lookup fn)
  | [], _, _ => ⟨rfl, rfl⟩
  | a :: rest, acc, h => by
    rw [List.foldl_cons]
    have h1 := processEvalLog_lookup_ne eval_refs cb a fn
      (h a (List.mem_cons_self a rest)) acc
    have h2 := walker_lookup_preserved eval_refs cb fn rest
      (processEvalLog eval_refs cb acc a)
      (fun l' hl' => h l' (List.mem_cons_of_mem a hl'))
    exact ⟨h2.1.trans h1.1, h2.2.trans h1.2⟩

/-- Auxiliary induction for C3, generalized over the accumulator. -/
theorem c3_aux (eval_refs : List (String × GoldResults))
    (cb : Option (EvalLog → Bool)) (l : EvalLog) (g : GoldResults)
    (hcb : callbackKeeps cb l = true) (hrep : l.has_report = false)
    (href : eval_refs.lookup l.instance_id = some g) :
    ∀ (logs : List EvalLog) (acc : ReportDict × ReportDict),
      l ∈ logs → (logs.map EvalLog.file_name).Nodup →
      acc.1.lookup l.file_name = Option.none →
      ((logs.foldl (processEvalLog eval_refs cb) acc).2.lookup l.file_name =
          some (synthFailureReport g) ∧
       (logs.foldl (processEvalLog eval_refs cb) acc).1.lookup l.file_name =
          Option.none) := by
  intro logs
  induction logs with
  | nil =>
    intro acc hmem
    exact absurd hmem (List.not_mem_nil l)
  | cons a rest ih =>
    intro acc hmem hnd hnone
    rw [List.foldl_cons]
    rw [List.map_cons, List.nodup_cons] at hnd
    rcases List.mem_cons.mp hmem with heq | hmem2
    · subst heq
      have hstep : processEvalLog eval_refs cb acc l =
          (acc.1, dictInsert acc.2 l.file_name (synthFailureReport g)) := by
        simp [processEvalLog, hcb, href, hrep]
      rw [hstep]
      have hall : ∀ l' ∈ rest, l'.file_name ≠ l.file_name := by
        intro l' hl' he
        exact hnd.1 (he ▸ List.mem_map_of_mem EvalLog.file_name hl')
      have hp := walker_lookup_preserved eval_refs cb l.file_name rest
        (acc.1, dictInsert acc.2 l.file_name (synthFailureReport g)) hall
      exact ⟨hp.2.trans
          (lookup_dictInsert_self acc.2 l.file_name (synthFailureReport g)),
        hp.1.trans hnone⟩
    · have hane : a.file_name ≠ l.file_name := by
        intro he
        exact hnd.1 (he ▸ List.mem_map_of_mem EvalLog.file_name hmem2)
      have h1 := processEvalLog_lookup_ne eval_refs cb a l.file_name hane acc
      exact ih (processEvalLog eval_refs cb acc a) hmem2 hnd.2
        (h1.1.trans hnone)

/-- C3: a log whose status map source reports no usable report is routed by
get_eval_reports_for_logs to the failure dict, keyed by its file name, with
the synthesized report whose every gold category has an empty success list
and the full gold list as failure list; it gets no entry in the success
dict. -/
theorem c3_patch_failure_synthesized (eval_refs : List (String × GoldResults))
    (cb : Option (EvalLog → Bool)) (eval_logs : List EvalLog) (l : EvalLog)
    (g : GoldResults) (hmem : l ∈ eval_logs)
    (hnd : (eval_logs.map EvalLog.file_name).Nodup)
    (hcb : callbackKeeps cb l = true) (hrep : l.has_report = false)
    (href : eval_refs.lookup l.instance_id = some g) :
    (get_eval_reports_for_logs eval_logs eval_refs cb).2.lookup l.file_name =
        some ⟨⟨[], g.FAIL_TO_PASS⟩, ⟨[], g.PASS_TO_PASS⟩,
          ⟨[], g.FAIL_TO_FAIL⟩, ⟨[], g.PASS_TO_FAIL⟩⟩ ∧
    (get_eval_reports_for_logs eval_logs eval_refs cb).1.lookup l.file_name =
        Option.none :=
  c3_aux eval_refs cb l g hcb hrep href eval_logs ([], []) hmem hnd rfl

/-- Witness for C3 at a concrete patch-apply-failure log. -/
theorem c3_patch_failure_synthesized_witness :
    ((⟨"i1", "f1", [], false⟩ : EvalLog) ∈
        [(⟨"i1", "f1", [], false⟩ : EvalLog)]) ∧
    (get_eval_reports_for_logs [⟨"i1", "f1", [], false⟩]
        [("i1", ⟨["a"], ["b"], [], []⟩)] Option.none).2.lookup "f1" =
      some ⟨⟨[], ["a"]⟩, ⟨[], ["b"]⟩, ⟨[], []⟩, ⟨[], []⟩⟩ :=
  ⟨List.mem_singleton.mpr rfl,
   (c3_patch_failure_synthesized [("i1", ⟨["a"], ["b"], [], []⟩)] Option.none
      [⟨"i1", "f1", [], false⟩] ⟨"i1", "f1", [], false⟩ ⟨["a"], ["b"], [], []⟩
      (List.mem_singleton.mpr rfl) (by simp) rfl rfl (by decide)).1⟩

/-- Witness for C4: a concrete passing test case is on the FAIL_TO_PASS
success list and therefore not on its failure list. -/
theorem c4_success_failure_disjoint_witness :
    ("t1" ∈ (get_eval_report [("t1", TestStatus.PASSED)]
        ⟨["t1"], [], [], []⟩).FAIL_TO_PASS.success) ∧
    "t1" ∉ (get_eval_report [("t1", TestStatus.PASSED)]
        ⟨["t1"], [], [], []⟩).FAIL_TO_PASS.failure :=
  ⟨by decide,
   (c4_success_failure_disjoint [("t1", TestStatus.PASSED)]
      ⟨["t1"], [], [], []⟩ "t1").1 (by decide)⟩

/-! ## Claim C5 -/

/-- Every report the walker ever puts in the failure dict is a synthesized
all-failure report. -/
theorem walker_failure_all_synth (eval_refs : List (String × GoldResults))
    (cb : Option (EvalLog → Bool)) :
    ∀ (logs : List EvalLog) (acc : ReportDict × ReportDict),
      (∀ pr ∈ acc.2, ∃ g, pr.2 = synthFailureReport g) →
      ∀ pr ∈ (logs.foldl (processEvalLog eval_refs cb) acc).2,
        ∃ g, pr.2 = synthFailureReport g
  | [], _, h => h
  | a :: rest, acc, h => by
    rw [List.foldl_cons]
    apply walker_failure_all_synth eval_refs cb rest
    intro pr hpr
    revert hpr
    unfold processEvalLog
    split
    · exact h pr
    · split
      · exact h pr
      · split
        · intro hpr
          rcases mem_dictInsert _ _ _ _ hpr with h1 | h1
          · exact h pr h1
          · exact ⟨_, by rw [h1]⟩
        · exact h pr

/-- C5: get_model_eval_summary produces exactly two views: the Patch Apply
Success view computed over the walker success dict alone, and the Patch
Apply Success + Failure view computed over the union of the success dict
with the failure dict, whose members are all synthesized all-failure
reports of failed-to-apply instances. -/
theorem c5_two_views (preds : List Prediction) (eval_logs : List EvalLog)
    (eval_refs : List (String × GoldResults))
    (cb : Option (EvalLog → Bool)) :
    (get_model_eval_summary preds eval_logs eval_refs cb).patch_apply_success =
      makeView [(get_eval_reports_for_logs eval_logs eval_refs cb).1] ∧
    (get_model_eval_summary preds eval_logs eval_refs
        cb).patch_apply_success_and_failure =
      makeView [(get_eval_reports_for_logs eval_logs eval_refs cb).1,
        (get_eval_reports_for_logs eval_logs eval_refs cb).2] ∧
    ∀ pr ∈ (get_eval_reports_for_logs eval_logs eval_refs cb).2,
      ∃ g, pr.2 = synthFailureReport g :=
  ⟨rfl, rfl,
   walker_failure_all_synth eval_refs cb eval_logs ([], [])
     (fun pr hpr => absurd hpr (List.not_mem_nil pr))⟩

/-- Witness for C5: the failure-dict entry of a concrete failed-to-apply
log is a synthesized all-failure report. -/
theorem c5_two_views_witness :
    ∃ g, (("f1", (⟨⟨[], ["a"]⟩, ⟨[], []⟩, ⟨[], []⟩, ⟨[], []⟩⟩ :
        InstanceReport)) : String × InstanceReport).2 =
      synthFailureReport g :=
  (c5_two_views [] [⟨"i1", "f1", [], false⟩] [("i1", ⟨["a"], [], [], []⟩)]
      Option.none).2.2
    ("f1", ⟨⟨[], ["a"]⟩, ⟨[], []⟩, ⟨[], []⟩, ⟨[], []⟩⟩) (by decide)

/-! ## Claims C6 and C10 -/

/-- Rounding zero to two decimal places gives zero. -/
theorem pyRound2_zero : pyRound2 0 = 0 := by
  simp [pyRound2]

/-- Rounding to two decimal places moves a rational by at most half of one
hundredth. -/
theorem pyRound2_close (y : ℚ) : |pyRound2 y - y| ≤ 1 / 200 := by
  have h := abs_sub_round (y * 100)
  have h100 : (0 : ℚ) < 100 := by norm_num
  unfold pyRound2
  rw [show ((round (y * 100) : ℤ) : ℚ) / 100 - y =
      -((y * 100 - ((round (y * 100) : ℤ) : ℚ)) / 100) by ring]
  rw [abs_neg, abs_div, abs_of_pos h100]
  calc |y * 100 - ((round (y * 100) : ℤ) : ℚ)| / 100
      ≤ (1 / 2) / 100 := (div_le_div_iff_of_pos_right h100).mpr h
    _ = 1 / 200 := by norm_num

/-- The three verdict counts of a verdict list partition its length. -/
theorem count_verdicts_partition (vs : List ResolutionVerdict) :
    vs.count ResolutionVerdict.RESOLVED_FULL +
      vs.count ResolutionVerdict.RESOLVED_PARTIAL +
      vs.count ResolutionVerdict.RESOLVED_NO = vs.length := by
  induction vs with
  | nil => rfl
  | cons v rest ih =>
    cases v <;> simp [List.count_cons] <;> omega

/-- One entry of the case_resolution_rates list: a verdict that occurs in
the verdict list paired with its rounded percentage share; nothing for a
verdict that does not occur. -/
def rateEntry (vs : List ResolutionVerdict) (L : ℚ) (v : ResolutionVerdict) :
    Option (ResolutionVerdict × ℚ) :=
  if 0 < vs.count v then
    some (v, pyRound2 ((vs.count v : ℚ) / L * 100))
  else Option.none

/-- Summing the rate entries of one more verdict adds its rounded rate,
which is zero when the verdict does not occur. -/
theorem rateEntry_cons_sum (vs : List ResolutionVerdict) (L : ℚ)
    (v : ResolutionVerdict) (rest : List ResolutionVerdict) :
    ((List.filterMap (rateEntry vs L) (v :: rest)).map Prod.snd).sum =
      pyRound2 ((vs.count v : ℚ) / L * 100) +
        ((List.filterMap (rateEntry vs L) rest).map Prod.snd).sum := by
  rcases Nat.eq_zero_or_pos (vs.count v) with h | h
  · rw [List.filterMap_cons]
    have he : rateEntry vs L v = Option.none := by
      simp [rateEntry, h]
    rw [he, h]
    simp [pyRound2_zero]
  · rw [List.filterMap_cons]
    have he : rateEntry vs L v =
        some (v, pyRound2 ((vs.count v : ℚ) / L * 100)) := by
      simp [rateEntry, h]
    rw [he]
    simp

/-- The sum of the rounded rates over the verdicts that occur equals the
three-term sum over all verdicts, since an absent verdict contributes a
rounded rate of zero. -/
theorem rates_filterMap_sum (vs : List ResolutionVerdict) (L : ℚ) :
    ((allVerdicts.filterMap (rateEntry vs L)).map Prod.snd).sum =
      pyRound2 ((vs.count ResolutionVerdict.RESOLVED_FULL : ℚ) / L * 100) +
      pyRound2 ((vs.count ResolutionVerdict.RESOLVED_PARTIAL : ℚ) / L * 100) +
      pyRound2 ((vs.count ResolutionVerdict.RESOLVED_NO : ℚ) / L * 100) := by
  simp only [allVerdicts]
  rw [rateEntry_cons_sum, rateEntry_cons_sum, rateEntry_cons_sum]
  simp only [List.filterMap_nil, List.map_nil, List.sum_nil, add_zero]
  ring

/-- The true (unrounded) verdict rates sum to exactly 100 percent. -/
theorem true_rates_sum (vs : List ResolutionVerdict) (h : vs.length ≠ 0) :
    (vs.count ResolutionVerdict.RESOLVED_FULL : ℚ) / (vs.length : ℚ) * 100 +
      (vs.count ResolutionVerdict.RESOLVED_PARTIAL : ℚ) / (vs.length : ℚ) *
        100 +
      (vs.count ResolutionVerdict.RESOLVED_NO : ℚ) / (vs.length : ℚ) * 100 =
      100 := by
  have hL : ((vs.length : ℚ)) ≠ 0 := Nat.cast_ne_zero.mpr h
  have hc : ((vs.count ResolutionVerdict.RESOLVED_FULL : ℚ) +
      (vs.count ResolutionVerdict.RESOLVED_PARTIAL : ℚ) +
      (vs.count ResolutionVerdict.RESOLVED_NO : ℚ)) = (vs.length : ℚ) := by
    rw [← count_verdicts_partition vs]
    push_cast
    ring
  field_simp
  linear_combination 100 * hc

/-- The rounded verdict rates sum to 100 percent up to three half-cent
rounding errors. -/
theorem sum_rates_bound (vs : List ResolutionVerdict) (h : vs.length ≠ 0) :
    |((allVerdicts.filterMap (rateEntry vs (vs.length : ℚ))).map
        Prod.snd).sum - 100| ≤ 3 / 200 := by
  rw [rates_filterMap_sum]
  set qF := (vs.count ResolutionVerdict.RESOLVED_FULL : ℚ) /
    (vs.length : ℚ) * 100 with hqF
  set qP := (vs.count ResolutionVerdict.RESOLVED_PARTIAL : ℚ) /
    (vs.length : ℚ) * 100 with hqP
  set qN := (vs.count ResolutionVerdict.RESOLVED_NO : ℚ) /
    (vs.length : ℚ) * 100 with hqN
  have hsum : qF + qP + qN = 100 := true_rates_sum vs h
  have bF := pyRound2_close qF
  have bP := pyRound2_close qP
  have bN := pyRound2_close qN
  have hre : pyRound2 qF + pyRound2 qP + pyRound2 qN - 100 =
      (pyRound2 qF - qF) + (pyRound2 qP - qP) + (pyRound2 qN - qN) := by
    linear_combination hsum
  rw [hre]
  calc |(pyRound2 qF - qF) + (pyRound2 qP - qP) + (pyRound2 qN - qN)|
      ≤ |pyRound2 qF - qF| + |pyRound2 qP - qP| + |pyRound2 qN - qN| :=
        abs_add_three _ _ _
    _ ≤ 1 / 200 + 1 / 200 + 1 / 200 := add_le_add (add_le_add bF bP) bN
    _ = 3 / 200 := by norm_num

/-- C6: in a view built by the aggregator, each verdict rate equals that
verdict count divided by the number of reports, times 100, rounded to two
decimal places; and over a non-empty report list the rates of all verdict
buckets sum to 100 within rounding tolerance.  Both views of
get_model_eval_summary are makeView applications (claim C5), so this holds
for each view. -/
theorem c6_verdict_rates (case_dicts : List ReportDict) :
    (∀ v rate, (v, rate) ∈ (makeView case_dicts).case_resolution_rates →
      rate = pyRound2
        ((((viewReports case_dicts).map get_resolution_status).count v : ℚ) /
          ((viewReports case_dicts).length : ℚ) * 100)) ∧
    (viewReports case_dicts ≠ [] →
      |(((makeView case_dicts).case_resolution_rates.map Prod.snd).sum) -
          100| ≤ 3 / 200) := by
  have hrfl : (makeView case_dicts).case_resolution_rates =
      allVerdicts.filterMap
        (rateEntry ((viewReports case_dicts).map get_resolution_status)
          (((viewReports case_dicts).length : ℚ))) := rfl
  constructor
  · intro v rate hmem
    rw [hrfl] at hmem
    rcases List.mem_filterMap.mp hmem with ⟨v2, hv2, heq⟩
    unfold rateEntry at heq
    split at heq
    · simp only [Option.some_inj, Prod.mk.injEq] at heq
      obtain ⟨h1, h2⟩ := heq
      subst h1
      exact h2.symm
    · simp at heq
  · intro hne
    rw [hrfl]
    have hlen : ((viewReports case_dicts).map get_resolution_status).length ≠
        0 := by
      rw [List.length_map]
      exact fun h0 => hne (List.length_eq_zero.mp h0)
    have hb := sum_rates_bound
      ((viewReports case_dicts).map get_resolution_status) hlen
    rw [List.length_map] at hb
    exact hb

/-- Witness for C6 at a single-report view: its RESOLVED_FULL rate entry
has the rounded-rate value and the rates sum is within tolerance. -/
theorem c6_verdict_rates_witness :
    (pyRound2
        ((((viewReports [[("f", ⟨⟨[], []⟩, ⟨[], []⟩, ⟨[], []⟩, ⟨[], []⟩⟩)]]).map
              get_resolution_status).count
            ResolutionVerdict.RESOLVED_FULL : ℚ) /
          ((viewReports [[("f", ⟨⟨[], []⟩, ⟨[], []⟩, ⟨[], []⟩,
              ⟨[], []⟩⟩)]]).length : ℚ) * 100) =
      pyRound2
        ((((viewReports [[("f", ⟨⟨[], []⟩, ⟨[], []⟩, ⟨[], []⟩, ⟨[], []⟩⟩)]]).map
              get_resolution_status).count
            ResolutionVerdict.RESOLVED_FULL : ℚ) /
          ((viewReports [[("f", ⟨⟨[], []⟩, ⟨[], []⟩, ⟨[], []⟩,
              ⟨[], []⟩⟩)]]).length : ℚ) * 100)) ∧
    |(((makeView [[("f", ⟨⟨[], []⟩, ⟨[], []⟩, ⟨[], []⟩,
          ⟨[], []⟩⟩)]]).case_resolution_rates.map Prod.snd).sum) - 100| ≤
      3 / 200 :=
  ⟨(c6_verdict_rates [[("f", ⟨⟨[], []⟩, ⟨[], []⟩, ⟨[], []⟩, ⟨[], []⟩⟩)]]).1
      ResolutionVerdict.RESOLVED_FULL _ (List.mem_singleton.mpr rfl),
   (c6_verdict_rates [[("f", ⟨⟨[], []⟩, ⟨[], []⟩, ⟨[], []⟩, ⟨[], []⟩⟩)]]).2
      (by decide)⟩

/-- C10: the verdict-rate computation never divides by zero: an empty
report list yields an empty rates list, and any entry of the verdict
histogram forces the report list length (the denominator) to be
positive. -/
theorem c10_no_division_by_zero (case_dicts : List ReportDict) :
    (viewReports case_dicts = [] →
      (makeView case_dicts).case_resolution_rates = []) ∧
    (∀ v c, (v, c) ∈ (makeView case_dicts).case_resolution_counts →
      0 < (viewReports case_dicts).length) := by
  constructor
  · intro h
    have hrfl : (makeView case_dicts).case_resolution_rates =
        allVerdicts.filterMap
          (rateEntry ((viewReports case_dicts).map get_resolution_status)
            (((viewReports case_dicts).length : ℚ))) := rfl
    rw [hrfl, h]
    simp [allVerdicts, rateEntry]
  · intro v c hmem
    have hrfl2 : (makeView case_dicts).case_resolution_counts =
        allVerdicts.filterMap (fun v =>
          if 0 < ((viewReports case_dicts).map get_resolution_status).count v
          then some
            (v, ((viewReports case_dicts).map get_resolution_status).count v)
          else Option.none) := rfl
    rw [hrfl2] at hmem
    rcases List.mem_filterMap.mp hmem with ⟨v2, hv2, heq⟩
    split at heq
    · rename_i hpos
      have hle := List.count_le_length v2
        ((viewReports case_dicts).map get_resolution_status)
      have hlt : 0 < ((viewReports case_dicts).map
          get_resolution_status).length := lt_of_lt_of_le hpos hle
      rw [List.length_map] at hlt
      exact hlt
    · simp at heq

/-- Witness for C10: the empty corpus gives an empty rates list, and a
concrete non-empty histogram forces a positive denominator. -/
theorem c10_no_division_by_zero_witness :
    (makeView ([] : List ReportDict)).case_resolution_rates = [] ∧
    0 < (viewReports
      [[("f", ⟨⟨[], []⟩, ⟨[], []⟩, ⟨[], []⟩, ⟨[], []⟩⟩)]]).length :=
  ⟨(c10_no_division_by_zero []).1 rfl,
   (c10_no_division_by_zero
      [[("f", ⟨⟨[], []⟩, ⟨[], []⟩, ⟨[], []⟩, ⟨[], []⟩⟩)]]).2
     ResolutionVerdict.RESOLVED_FULL 1 (by decide)⟩

/-! ## Claim C8 -/

/-- Looking up any key after a dict insertion, with a default. -/
theorem lookup_dictInsert_getD {β : Type} (m : List (String × β))
    (k : String) (v : β) (repo : String) (d : β) :
    ((dictInsert m k v).lookup repo).getD d =
      if repo = k then v else ((m.lookup repo).getD d) := by
  by_cases h : repo = k
  · subst h
    rw [lookup_dictInsert_self, if_pos rfl]
    rfl
  · rw [lookup_dictInsert_other _ _ _ _ h, if_neg h]

/-- C8: a prediction whose model_patch is null makes get_model_report
append its instance id to the none list of its repo entry and nothing
else: no error is raised and every other list of every repo entry is
untouched, as the record update in the result shows. -/
theorem c8_null_patch_only_none (logs : String → Option (StatusMap × Bool))
    (gold_refs : List (String × GoldResults)) (preds : List Prediction)
    (p : Prediction) (m : ReportMap) (hp : p.model_patch = Option.none)
    (hm : get_model_report logs gold_refs preds = some m) :
    get_model_report logs gold_refs (preds ++ [p]) =
      some (dictInsert m (repoOf p.instance_id)
        { ((m.lookup (repoOf p.instance_id)).getD emptyRepoEntry) with
            no_patch := ((m.lookup (repoOf p.instance_id)).getD
              emptyRepoEntry).no_patch ++ [p.instance_id] }) := by
  unfold get_model_report at hm ⊢
  rw [List.foldlM_append, hm]
  show (List.foldlM (processPred logs gold_refs) m [p]) = _
  rw [List.foldlM_cons]
  simp only [processPred, hp]
  rfl

/-- Witness for C8 at a concrete null-patch prediction. -/
theorem c8_null_patch_only_none_witness :
    get_model_report (fun _ => Option.none) []
        ([] ++ [(⟨"r-1", Option.none⟩ : Prediction)]) =
      some (dictInsert [] (repoOf "r-1")
        { ((([] : ReportMap).lookup (repoOf "r-1")).getD emptyRepoEntry) with
            no_patch := ((([] : ReportMap).lookup
              (repoOf "r-1")).getD emptyRepoEntry).no_patch ++ ["r-1"] }) :=
  c8_null_patch_only_none (fun _ => Option.none) [] [] ⟨"r-1", Option.none⟩
    [] rfl rfl

/-! ## Claim C9 -/

/-- The chain invariant on one repo entry: resolved ids are applied,
applied ids have logs, and ids with logs were generated. -/
def entryChain (e : RepoEntry) : Prop :=
  (∀ x ∈ e.resolved, x ∈ e.applied) ∧
  (∀ x ∈ e.applied, x ∈ e.with_logs) ∧
  (∀ x ∈ e.with_logs, x ∈ e.generated)

/-- The fresh entry satisfies the chain invariant. -/
theorem entryChain_empty : entryChain emptyRepoEntry :=
  ⟨fun x hx => absurd hx (List.not_mem_nil x),
   fun x hx => absurd hx (List.not_mem_nil x),
   fun x hx => absurd hx (List.not_mem_nil x)⟩

/-- Inserting a chain-respecting entry into a chain-respecting map keeps
every entry chain-respecting. -/
theorem chain_dictInsert (m : ReportMap) (k : String) (v : RepoEntry)
    (hm : ∀ repo e, m.lookup repo = some e → entryChain e)
    (hv : entryChain v) :
    ∀ repo e, (dictInsert m k v).lookup repo = some e → entryChain e := by
  intro repo e hl
  by_cases hr : repo = k
  · subst hr
    rw [lookup_dictInsert_self] at hl
    cases hl
    exact hv
  · rw [lookup_dictInsert_other _ _ _ _ hr] at hl
    exact hm repo e hl

/-- One step of get_model_report preserves the chain invariant on every
repo entry. -/
theorem processPred_preserves_chain (logs : String → Option (StatusMap × Bool))
    (gold_refs : List (String × GoldResults)) (m0 : ReportMap)
    (p : Prediction) (m1 : ReportMap)
    (hch : ∀ repo e, m0.lookup repo = some e → entryChain e)
    (hstep : processPred logs gold_refs m0 p = some m1) :
    ∀ repo e, m1.lookup repo = some e → entryChain e := by
  have he0 : entryChain
      ((m0.lookup (repoOf p.instance_id)).getD emptyRepoEntry) := by
    cases hl : m0.lookup (repoOf p.instance_id) with
    | none => exact entryChain_empty
    | some e => exact hch _ e hl
  simp only [processPred] at hstep
  rcases he0 with ⟨hra, haw, hwg⟩
  split at hstep
  · -- null patch: only no_patch changes
    rw [Option.some_inj] at hstep
    subst hstep
    exact chain_dictInsert _ _ _ hch ⟨hra, haw, hwg⟩
  · split at hstep
    · -- no log file: only generated grows
      rw [Option.some_inj] at hstep
      subst hstep
      refine chain_dictInsert _ _ _ hch ⟨hra, haw, ?_⟩
      intro x hx
      exact List.mem_append_left _ (hwg x hx)
    · split at hstep
      · -- no usable report: generated and with_logs grow
        rw [Option.some_inj] at hstep
        subst hstep
        refine chain_dictInsert _ _ _ hch
          ⟨hra, fun x hx => List.mem_append_left _ (haw x hx), ?_⟩
        intro x hx
        rcases List.mem_append.mp hx with h | h
        · exact List.mem_append_left _ (hwg x h)
        · exact List.mem_append_right _ h
      · split at hstep
        · -- missing gold reference: KeyError, no result
          exact absurd hstep (by simp)
        · -- applied, possibly resolved
          split at hstep
          · rw [Option.some_inj] at hstep
            subst hstep
            refine chain_dictInsert _ _ _ hch ⟨?_, ?_, ?_⟩
            · intro x hx
              rcases List.mem_append.mp hx with h | h
              · exact List.mem_append_left _ (hra x h)
              · exact List.mem_append_right _ h
            · intro x hx
              rcases List.mem_append.mp hx with h | h
              · exact List.mem_append_left _ (haw x h)
              · exact List.mem_append_right _ h
            · intro x hx
              rcases List.mem_append.mp hx with h | h
              · exact List.mem_append_left _ (hwg x h)
              · exact List.mem_append_right _ h
          · rw [Option.some_inj] at hstep
            subst hstep
            refine chain_dictInsert _ _ _ hch ⟨?_, ?_, ?_⟩
            · intro x hx
              exact List.mem_append_left _ (hra x hx)
            · intro x hx
              rcases List.mem_append.mp hx with h | h
              · exact List.mem_append_left _ (haw x h)
              · exact List.mem_append_right _ h
            · intro x hx
              rcases List.mem_append.mp hx with h | h
              · exact List.mem_append_left _ (hwg x h)
              · exact List.mem_append_right _ h

/-- Folding get_model_report steps preserves the chain invariant. -/
theorem foldl_preserves_chain (logs : String → Option (StatusMap × Bool))
    (gold_refs : List (String × GoldResults)) :
    ∀ (preds : List Prediction) (m0 m : ReportMap),
      (∀ repo e, m0.lookup repo = some e → entryChain e) →
      preds.foldlM (processPred logs gold_refs) m0 = some m →
      (∀ repo e, m.lookup repo = some e → entryChain e)
  | [], m0, m, h0, hm => by
    rw [List.foldlM_nil] at hm
    cases hm
    exact h0
  | p :: rest, m0, m, h0, hm => by
    rw [List.foldlM_cons] at hm
    cases hstep : processPred logs gold_refs m0 p with
    | none =>
      rw [hstep] at hm
      exact absurd hm (by simp)
    | some m1 =>
      rw [hstep] at hm
      exact foldl_preserves_chain logs gold_refs rest m1 m
        (processPred_preserves_chain logs gold_refs m0 p m1 h0 hstep) hm

/-- A null-patch step changes no generated list. -/
theorem processPred_null_keeps_generated
    (logs : String → Option (StatusMap × Bool))
    (gold_refs : List (String × GoldResults)) (m0 : ReportMap)
    (p : Prediction) (m1 : ReportMap) (hp : p.model_patch = Option.none)
    (hstep : processPred logs gold_refs m0 p = some m1) (repo : String) :
    ((m1.lookup repo).getD emptyRepoEntry).generated =
      ((m0.lookup repo).getD emptyRepoEntry).generated := by
  simp only [processPred, hp] at hstep
  rw [Option.some_inj] at hstep
  subst hstep
  rw [lookup_dictInsert_getD]
  by_cases h : repo = repoOf p.instance_id
  · rw [if_pos h, h]
  · rw [if_neg h]

/-- A step on a prediction that has a patch changes no none list. -/
theorem processPred_some_keeps_no_patch
    (logs : String → Option (StatusMap × Bool))
    (gold_refs : List (String × GoldResults)) (m0 : ReportMap)
    (p : Prediction) (m1 : ReportMap) (patch : String)
    (hp : p.model_patch = some patch)
    (hstep : processPred logs gold_refs m0 p = some m1) (repo : String) :
    ((m1.lookup repo).getD emptyRepoEntry).no_patch =
      ((m0.lookup repo).getD emptyRepoEntry).no_patch := by
  simp only [processPred, hp] at hstep
  split at hstep
  · rw [Option.some_inj] at hstep
    subst hstep
    rw [lookup_dictInsert_getD]
    by_cases h : repo = repoOf p.instance_id
    · rw [if_pos h, h]
    · rw [if_neg h]
  · split at hstep
    · rw [Option.some_inj] at hstep
      subst hstep
      rw [lookup_dictInsert_getD]
      by_cases h : repo = repoOf p.instance_id
      · rw [if_pos h, h]
      · rw [if_neg h]
    · split at hstep
      · exact absurd hstep (by simp)
      · split at hstep
        · rw [Option.some_inj] at hstep
          subst hstep
          rw [lookup_dictInsert_getD]
          by_cases h : repo = repoOf p.instance_id
          · rw [if_pos h, h]
          · rw [if_neg h]
        · rw [Option.some_inj] at hstep
          subst hstep
          rw [lookup_dictInsert_getD]
          by_cases h : repo = repoOf p.instance_id
          · rw [if_pos h, h]
          · rw [if_neg h]

/-- C9: in every report map returned by get_model_report the id lists of
each repo entry form a chain (resolved within applied within with_logs
within generated), and one step never records the same prediction under
both none and generated: a null-patch step keeps every generated list and
a patch-bearing step keeps every none list. -/
theorem c9_report_map_invariants (logs : String → Option (StatusMap × Bool))
    (gold_refs : List (String × GoldResults)) (preds : List Prediction)
    (m : ReportMap) (hm : get_model_report logs gold_refs preds = some m) :
    (∀ repo e, m.lookup repo = some e → entryChain e) ∧
    (∀ (m0 : ReportMap) (p : Prediction) (m1 : ReportMap),
      processPred logs gold_refs m0 p = some m1 →
      (p.model_patch = Option.none →
        ∀ repo, ((m1.lookup repo).getD emptyRepoEntry).generated =
          ((m0.lookup repo).getD emptyRepoEntry).generated) ∧
      (∀ patch, p.model_patch = some patch →
        ∀ repo, ((m1.lookup repo).getD emptyRepoEntry).no_patch =
          ((m0.lookup repo).getD emptyRepoEntry).no_patch)) := by
  constructor
  · exact foldl_preserves_chain logs gold_refs preds [] m
      (fun repo e hl => by simp [List.lookup] at hl) hm
  · intro m0 p m1 hstep
    constructor
    · intro hp repo
      exact processPred_null_keeps_generated logs gold_refs m0 p m1 hp
        hstep repo
    · intro patch hp repo
      exact processPred_some_keeps_no_patch logs gold_refs m0 p m1 patch hp
        hstep repo

/-- Witness for C9: a concrete null-patch step leaves the generated list
of an unrelated repo key untouched. -/
theorem c9_report_map_invariants_witness :
    (((dictInsert ([] : ReportMap) (repoOf "r-1")
        { ((([] : ReportMap).lookup (repoOf "r-1")).getD emptyRepoEntry) with
            no_patch := ((([] : ReportMap).lookup
              (repoOf "r-1")).getD emptyRepoEntry).no_patch ++
              ["r-1"] }).lookup "q").getD emptyRepoEntry).generated =
      ((([] : ReportMap).lookup "q").getD emptyRepoEntry).generated :=
  ((c9_report_map_invariants (fun _ => Option.none) [] [] [] rfl).2
    [] ⟨"r-1", Option.none⟩
    (dictInsert [] (repoOf "r-1")
      { ((([] : ReportMap).lookup (repoOf "r-1")).getD emptyRepoEntry) with
          no_patch := ((([] : ReportMap).lookup
            (repoOf "r-1")).getD emptyRepoEntry).no_patch ++ ["r-1"] })
    rfl).1 rfl "q"

